import Mathlib

-- Verification development for the LAWGPT KSA chatbot pipeline.
-- Shallow embedding of pdf_processor.py and lawgpt_utils.py.
-- Text is modelled as List Char; Python string indices as Int with
-- Python slice clamping semantics; the external services (sentence
-- transformer, Qdrant, Azure OpenAI) are modelled as explicit inputs
-- (availability flags and search or completion outcomes).

-- ## Basic character and string helpers

-- Python regex \s and str.strip whitespace, restricted to the ASCII
-- whitespace characters (space, tab, newline, carriage return,
-- vertical tab, form feed).
def isPySpace (c : Char) : Bool :=
  c == ' ' || c == '\t' || c == '\n' || c == '\r' || c == '\x0b' || c == '\x0c'

def toLowerList (l : List Char) : List Char := l.map Char.toLower

def toUpperList (l : List Char) : List Char := l.map Char.toUpper

-- needle-first list version of Python str.startswith.
def startsWith : List Char → List Char → Bool
  | [], _ => true
  | _ :: _, [] => false
  | a :: as, b :: bs => a == b && startsWith as bs

-- Python `needle in hay` substring test.
def containsSub (needle : List Char) : List Char → Bool
  | [] => startsWith needle []
  | c :: rest => startsWith needle (c :: rest) || containsSub needle rest

-- Python str.strip(): drop leading and trailing whitespace.
def pyStrip (l : List Char) : List Char :=
  ((l.dropWhile isPySpace).reverse.dropWhile isPySpace).reverse

-- ## pdf_processor.py : clean_text
-- clean_text applies, in order:
--   re.sub(whitespace-run, single space)
--   re.sub(Page digits of digits, empty)
--   re.sub(digits ws* of ws* digits, empty)
--   re.sub(complement of the whitelist, empty)
--   str.strip()

-- re.sub of a whitespace run by a single space: each maximal run of
-- whitespace characters is replaced by one ' '.
def collapseWs : List Char → List Char
  | [] => []
  | [c] => if isPySpace c then [' '] else [c]
  | a :: b :: rest =>
    if isPySpace a && isPySpace b then collapseWs (b :: rest)
    else (if isPySpace a then ' ' else a) :: collapseWs (b :: rest)

-- Matcher for the pattern  Page \d+ of \d+  (literal spaces).  The
-- greedy \d+ with this pattern always matches the maximal digit run
-- (backtracking a digit run leaves a digit where a space is required,
-- so it always fails), hence the takeWhile/dropWhile formulation is
-- exactly Python's semantics.  Returns the remainder after the match.
def matchPageOf : List Char → Option (List Char)
  | 'P' :: 'a' :: 'g' :: 'e' :: ' ' :: rest =>
    if rest.takeWhile Char.isDigit = [] then none
    else
      match rest.dropWhile Char.isDigit with
      | ' ' :: 'o' :: 'f' :: ' ' :: rest2 =>
        if rest2.takeWhile Char.isDigit = [] then none
        else some (rest2.dropWhile Char.isDigit)
      | _ => none
  | _ => none

-- Matcher for the pattern  \d+\s*of\s*\d+ .  As above, maximal runs
-- coincide with Python's backtracking semantics for this pattern.
def matchNumOf (l : List Char) : Option (List Char) :=
  if l.takeWhile Char.isDigit = [] then none
  else
    match (l.dropWhile Char.isDigit).dropWhile isPySpace with
    | 'o' :: 'f' :: rest2 =>
      if (rest2.dropWhile isPySpace).takeWhile Char.isDigit = [] then none
      else some ((rest2.dropWhile isPySpace).dropWhile Char.isDigit)
    | _ => none

-- re.sub with the Page-of pattern: scan left to right, removing each
-- match and resuming after it.  Structured with a fuel argument equal
-- to the remaining length so the kernel can evaluate it; every step
-- strictly shortens the list, so fuel = length always suffices and the
-- fuel-exhausted branch is reached only on the empty list.
def removePageOfGo : Nat → List Char → List Char
  | 0, l => l
  | _ + 1, [] => []
  | fuel + 1, c :: rest =>
    match matchPageOf (c :: rest) with
    | some rem => removePageOfGo fuel rem
    | none => c :: removePageOfGo fuel rest

def removePageOf (l : List Char) : List Char := removePageOfGo l.length l

-- re.sub with the digits-of-digits pattern, same scheme.
def removeNumOfGo : Nat → List Char → List Char
  | 0, l => l
  | _ + 1, [] => []
  | fuel + 1, c :: rest =>
    match matchNumOf (c :: rest) with
    | some rem => removeNumOfGo fuel rem
    | none => c :: removeNumOfGo fuel rest

def removeNumOf (l : List Char) : List Char := removeNumOfGo l.length l

-- The character whitelist of the final re.sub: word characters
-- (modelled as ASCII alphanumerics and underscore), whitespace, the
-- Arabic Unicode ranges 0600-06FF, 0750-077F, 08A0-08FF, FB50-FDFF,
-- FE70-FEFF, and the fixed punctuation set.
def isAllowedChar (c : Char) : Bool :=
  c.isAlpha || c.isDigit || c == '_' || isPySpace c
  || (0x0600 ≤ c.toNat && c.toNat ≤ 0x06FF)
  || (0x0750 ≤ c.toNat && c.toNat ≤ 0x077F)
  || (0x08A0 ≤ c.toNat && c.toNat ≤ 0x08FF)
  || (0xFB50 ≤ c.toNat && c.toNat ≤ 0xFDFF)
  || (0xFE70 ≤ c.toNat && c.toNat ≤ 0xFEFF)
  || c == '.' || c == ',' || c == '!' || c == '?' || c == ';' || c == ':'
  || c == '(' || c == ')' || c == '[' || c == ']' || c == '\x7b' || c == '\x7d'
  || c == '"' || c == '\'' || c == '-'

-- PDFProcessor.clean_text
def clean_text (text : List Char) : List Char :=
  pyStrip (List.filter isAllowedChar (removeNumOf (removePageOf (collapseWs text))))

-- PDFProcessor.categorize_law
def categorize_law (filename : List Char) : List Char :=
  let f := toLowerList filename
  if containsSub "civil".data f then "civil_law".data
  else if containsSub "criminal".data f then "criminal_law".data
  else if containsSub "labor".data f then "labor_law".data
  else if containsSub "company".data f then "company_law".data
  else if containsSub "traffic".data f then "traffic_law".data
  else if containsSub "sharia".data f then "sharia_law".data
  else if containsSub "board".data f && containsSub "grievance".data f then
    "administrative_law".data
  else if containsSub "basic".data f && containsSub "governance".data f then
    "constitutional_law".data
  else "general_law".data

-- ## pdf_processor.py : split_text_into_chunks

-- Python index normalization in a slice text[a:b] over a string of
-- length n: negative indices count from the end (clamped at 0),
-- nonnegative ones are clamped at n.
def pyIndexNorm (n : Nat) (i : Int) : Nat :=
  if i < 0 then ((n : Int) + i).toNat else min i.toNat n

-- Python slice text[a:b].
def pySlice (l : List Char) (a b : Int) : List Char :=
  (l.take (pyIndexNorm l.length b)).drop (pyIndexNorm l.length a)

-- Python character access text[i] (negative index counts from the
-- end); out-of-range access yields none, which the scanner below
-- treats as a non-terminator (such access does not occur in the
-- executions considered, where the scanned indices stay inside the
-- text).
def pyCharAt (l : List Char) (i : Int) : Option Char :=
  if 0 ≤ i then l.get? i.toNat
  else if (-i).toNat ≤ l.length then l.get? (l.length - (-i).toNat) else none

def isTerminator (c : Char) : Bool := c == '.' || c == '!' || c == '?'

-- for i in range(hi, lo, -1): if text[i] in '.!?': ...
-- scanDown visits i, i-1, ... for the given number of steps and
-- returns the first index whose character is a sentence terminator.
def scanDown (text : List Char) : Int → Nat → Option Int
  | _, 0 => none
  | i, n + 1 =>
    match pyCharAt text i with
    | some c => if isTerminator c then some i else scanDown text (i - 1) n
    | none => scanDown text (i - 1) n

-- One iteration's final window end: end = start + chunk_size, then if
-- end < len(text), search i from end down to max(start + chunk_size -
-- 200, start) exclusive for a terminator and set end = i + 1 on a hit.
def computeEnd (text : List Char) (cs : Nat) (start : Int) : Int :=
  let end0 : Int := start + (cs : Int)
  if end0 < (text.length : Int) then
    match scanDown text end0 ((end0 - max (start + (cs : Int) - 200) start).toNat) with
    | some i => i + 1
    | none => end0
  else end0

-- The while-loop of split_text_into_chunks, with a fuel argument:
-- some chunks means the Python loop terminates with that list, none
-- means the given fuel was exhausted first (for all fuel: the loop
-- runs forever).  The loop body appends text[start:end].strip() when
-- nonempty, advances start to end - overlap, and breaks when the new
-- start reaches the length (built here front-recursively, which
-- produces the same list as Python's accumulator).
def splitLoop (text : List Char) (cs ov : Nat) : Nat → Int → Option (List (List Char))
  | 0, _ => none
  | fuel + 1, start =>
    if start < (text.length : Int) then
      let e := computeEnd text cs start
      let chunk := pyStrip (pySlice text start e)
      let pre := if chunk = [] then [] else [chunk]
      if (text.length : Int) ≤ e - (ov : Int) then some pre
      else (splitLoop text cs ov fuel (e - (ov : Int))).map (fun rest => pre ++ rest)
    else some []

-- PDFProcessor.split_text_into_chunks (chunk_size and overlap default
-- to 1000 and 200 at the call sites).
def split_text_into_chunks (text : List Char) (cs ov : Nat) (fuel : Nat) :
    Option (List (List Char)) :=
  if text.length ≤ cs then some [text] else splitLoop text cs ov fuel 0

-- Instrumented variant of the loop recording the (start, end) window
-- of every iteration, including iterations whose stripped chunk is
-- empty and therefore not appended.
def splitLoopW (text : List Char) (cs ov : Nat) : Nat → Int → Option (List (Int × Int))
  | 0, _ => none
  | fuel + 1, start =>
    if start < (text.length : Int) then
      let e := computeEnd text cs start
      if (text.length : Int) ≤ e - (ov : Int) then some [(start, e)]
      else (splitLoopW text cs ov fuel (e - (ov : Int))).map (fun rest => (start, e) :: rest)
    else some []

def chunkOfWindow (text : List Char) (p : Int × Int) : Option (List Char) :=
  let c := pyStrip (pySlice text p.1 p.2)
  if c = [] then none else some c

def chunksOfWindows (text : List Char) (w : List (Int × Int)) : List (List Char) :=
  w.filterMap (chunkOfWindow text)

-- The successive windows of a terminating run: each window starts at
-- the running start position, the next start is exactly this window's
-- end minus the overlap, and the loop ends when the running start
-- reaches the text length.
def windowChain (ov len : Int) : Int → List (Int × Int) → Prop
  | s, [] => len ≤ s
  | s, q :: rest => q.1 = s ∧ windowChain ov len (q.2 - ov) rest

-- ## lawgpt_utils.py : retrieval and answer composition

-- A Qdrant search hit: a payload of optional fields (payload.get with
-- a default) plus a similarity score, modelled as an Int-valued score
-- (only its ordering matters to the code).
structure HitPayload where
  title : Option (List Char)
  text : Option (List Char)
  source : Option (List Char)
  law_type : Option (List Char)
  filename : Option (List Char)
deriving DecidableEq

structure Hit where
  payload : HitPayload
  score : Int
deriving DecidableEq

-- The result dictionaries built by get_relevant_documents.
structure DocEntry where
  id : List Char
  text : List Char
  source : List Char
  law_type : List Char
  filename : List Char
  score : Int
deriving DecidableEq

def docOfPdf (r : Hit) : DocEntry :=
  { id := r.payload.title.getD []
    text := r.payload.text.getD []
    source := r.payload.source.getD "unknown".data
    law_type := r.payload.law_type.getD "general".data
    filename := r.payload.filename.getD []
    score := r.score }

def docOfCase (r : Hit) : DocEntry :=
  { id := r.payload.title.getD []
    text := r.payload.text.getD []
    source := "case".data
    law_type := r.payload.law_type.getD "case_law".data
    filename := r.payload.filename.getD []
    score := r.score }

-- LAW_TYPE_MAPPING.get(key, the all list)
def lawTypeMappingGet (k : List Char) : List (List Char) :=
  if k = "sharia".data then ["sharia_law".data, "islamic_law".data]
  else if k = "labour".data then ["labor_law".data, "employment_law".data]
  else if k = "regulatory".data then
    ["administrative_law".data, "regulatory_law".data, "compliance".data]
  else if k = "hybrid".data then ["all".data]
  else ["all".data]

-- The manual law-type filter applied to an article hit: keep when the
-- filter is hybrid, when the allowed set is the no-restriction
-- sentinel, or when some allowed type occurs as a substring of the
-- hit's lowercased law_type.
def pdfFilterPred (law_filter : List Char) (allowed : List (List Char)) (r : Hit) : Bool :=
  (toLowerList law_filter == "hybrid".data) || allowed.contains "all".data
    || allowed.any (fun a => containsSub a (toLowerList (r.payload.law_type.getD [])))

-- The article-collection contribution of get_relevant_documents.  The
-- search itself (limit top_k * 3) is an input; a raised search error
-- is caught and contributes nothing.  NOTE: after appending the first
-- top_k filtered results, the source then re-appends every raw result
-- unfiltered (the second loop at lines 124-132), which this model
-- reproduces faithfully.
def pdfPartOf (law_filter : List Char) (top_k : Nat)
    (pdfSearch : Except (List Char) (List Hit)) : List DocEntry :=
  match pdfSearch with
  | .error _ => []
  | .ok pdf_results =>
    let allowed := lawTypeMappingGet (toLowerList law_filter)
    let filtered := pdf_results.filter (pdfFilterPred law_filter allowed)
    ((filtered.take top_k).map docOfPdf) ++ (pdf_results.map docOfPdf)

-- The case-collection contribution (limit top_k, never filtered; a
-- raised search error is caught and contributes nothing).
def casePartOf (caseSearch : Except (List Char) (List Hit)) : List DocEntry :=
  match caseSearch with
  | .error _ => []
  | .ok case_results => case_results.map docOfCase

def scoreGe (a b : DocEntry) : Prop := b.score ≤ a.score

instance : DecidableRel scoreGe := fun a b => inferInstanceAs (Decidable (b.score ≤ a.score))

instance : IsTotal DocEntry scoreGe := ⟨fun a b => le_total b.score a.score⟩

instance : IsTrans DocEntry scoreGe := ⟨fun _ _ _ h1 h2 => le_trans h2 h1⟩

-- all_results.sort(key score, reverse=True): a stable descending
-- sort; stable insertion sort produces the identical list.
def sortScoreDesc (l : List DocEntry) : List DocEntry := List.insertionSort scoreGe l

-- get_relevant_documents.  The three Bool flags model qdrant_client
-- or embedder being None and embedder.encode succeeding; the two
-- Except inputs model the two collection searches (result list, or
-- the message of a raised exception).
def get_relevant_documents (qdrantOk embedderOk encodeOk : Bool)
    (pdfSearch caseSearch : Except (List Char) (List Hit))
    (top_k : Nat) (law_filter : List Char) : List DocEntry :=
  if qdrantOk = false then []
  else if embedderOk = false then []
  else if encodeOk = false then []
  else (sortScoreDesc (pdfPartOf law_filter top_k pdfSearch ++ casePartOf caseSearch)).take top_k

-- get_relevant_cases: the legacy wrapper calls get_relevant_documents
-- with the law_filter parameter left at its default, the hybrid
-- filter.
def get_relevant_cases (qdrantOk embedderOk encodeOk : Bool)
    (pdfSearch caseSearch : Except (List Char) (List Hit)) (top_k : Nat) : List DocEntry :=
  get_relevant_documents qdrantOk embedderOk encodeOk pdfSearch caseSearch top_k "hybrid".data

-- ## ask_chatbot

def casesContext (cases : List DocEntry) : List Char :=
  "\n\n--- RELEVANT CASES ---\n".data ++
    List.intercalate "\n\n".data
      (cases.map (fun c => "Case: ".data ++ c.id ++ "\n".data ++ c.text))

def pdfsContext (pdfs : List DocEntry) : List Char :=
  "\n\n--- RELEVANT LAW ARTICLES ---\n".data ++
    List.intercalate "\n\n".data
      (pdfs.map (fun p => "Source: ".data ++ p.filename ++ " (".data ++ p.law_type
        ++ ")\n".data ++ p.text))

def contextOf (docs : List DocEntry) (law_filter : List Char) : List Char :=
  let cases := docs.filter (fun d => d.source = "case".data)
  let pdfs := docs.filter (fun d => d.source = "pdf".data)
  let filter_info := "Search Filter: ".data ++ toUpperList law_filter ++ " Law".data
  let part0 := "--- ".data ++ filter_info ++ " ---".data
  List.intercalate "\n".data
    ([part0] ++ (if cases = [] then [] else [casesContext cases])
      ++ (if pdfs = [] then [] else [pdfsContext pdfs]))

def promptWithDocs (docs : List DocEntry) (query law_filter : List Char) : List Char :=
  "You are a legal assistant for KSA law, specializing in ".data
    ++ toUpperList law_filter
    ++ " law.\nA user asks: \"".data ++ query
    ++ "\"\n\nHere are relevant legal sources (filtered for ".data
    ++ toUpperList law_filter ++ " law):\n".data ++ contextOf docs law_filter
    ++ "\n\nBased on these sources, provide a comprehensive and accurate answer focused on ".data
    ++ toUpperList law_filter
    ++ " law. Reference specific cases and law articles where applicable. If the sources don't fully address the question, mention that and suggest consulting with a qualified legal professional.\n".data

def promptNoDocs (query law_filter : List Char) : List Char :=
  "You are a legal assistant for KSA law, specializing in ".data
    ++ toUpperList law_filter
    ++ " law.\nA user asks: \"".data ++ query
    ++ "\"\n\nPlease provide a helpful and accurate answer based on general KSA ".data
    ++ toUpperList law_filter
    ++ " law knowledge. If you're unsure about specific details, please mention that and suggest consulting with a qualified legal professional.\n".data

def unavailableMessage : List Char :=
  "Sorry, the AI service is currently unavailable. Please check your Azure OpenAI configuration.".data

-- The canned contract-law fallback returned when the completion call
-- raised and the query mentions contract.
def contractFallback : List Char :=
  "Based on KSA contract law, contracts must meet several requirements to be valid:\n\n1. **Offer and Acceptance**: Both parties must agree to the terms\n2. **Capacity**: Parties must be legally capable of entering contracts\n3. **Consideration**: There must be mutual benefit\n4. **Legal Purpose**: The contract must be for lawful purposes\n5. **Form**: Some contracts require specific forms (written, notarized, etc.)\n\nFor specific legal advice, please consult with a qualified Saudi Arabian lawyer.".data

-- The generic fallback for all other queries; note that it ends with
-- the Error details line carrying str(e) for the raised exception e.
def genericFallback (query e : List Char) : List Char :=
  "I'm currently unable to access the AI service to provide a detailed answer about \"".data
    ++ query
    ++ "\". \n\nFor accurate legal information about KSA law, I recommend:\n- Consulting with a qualified Saudi Arabian lawyer\n- Checking official government legal resources\n- Contacting the Ministry of Justice\n\nError details: ".data
    ++ e

-- ask_chatbot.  clientOk models openai_client being initialized;
-- backend models the chat.completions.create call as a map from the
-- prompt to either the completion content or the message of a raised
-- exception.
def ask_chatbot (qdrantOk embedderOk encodeOk : Bool)
    (pdfSearch caseSearch : Except (List Char) (List Hit))
    (clientOk : Bool) (backend : List Char → Except (List Char) (List Char))
    (query law_filter : List Char) : List Char :=
  let relevant_docs :=
    get_relevant_documents qdrantOk embedderOk encodeOk pdfSearch caseSearch 5 law_filter
  let prompt :=
    if relevant_docs = [] then promptNoDocs query law_filter
    else promptWithDocs relevant_docs query law_filter
  if clientOk = false then unavailableMessage
  else
    match backend prompt with
    | .ok content => content
    | .error e =>
      if containsSub "contract".data (toLowerList query) then contractFallback
      else genericFallback query e

def get_available_filters : List (List Char) :=
  ["sharia".data, "labour".data, "regulatory".data, "hybrid".data]

-- The spec's ordered categorization rule list (section 4.4), written
-- from the spec's words for comparison with categorize_law: a
-- case-insensitive substring match over the filename against an
-- ordered rule list, first match wins, conjunctive keywords for the
-- two-keyword rules, default general_law.
def specRuleList : List (List (List Char) × List Char) :=
  [(["civil".data], "civil_law".data),
   (["criminal".data], "criminal_law".data),
   (["labor".data], "labor_law".data),
   (["company".data], "company_law".data),
   (["traffic".data], "traffic_law".data),
   (["sharia".data], "sharia_law".data),
   (["board".data, "grievance".data], "administrative_law".data),
   (["basic".data, "governance".data], "constitutional_law".data)]

def specCategorize (filename : List Char) : List Char :=
  match specRuleList.find?
      (fun rule => rule.1.all (fun kw => containsSub kw (toLowerList filename))) with
  | some r => r.2
  | none => "general_law".data

-- A civil-law article hit: under the sharia filter it fails the
-- law-type filter, yet the second (unfiltered) append loop still puts
-- it into the returned list.
def c1Hit : Hit :=
  { payload :=
      { title := some "Civil Article".data
        text := some "civil text".data
        source := some "pdf".data
        law_type := some "civil_law".data
        filename := some "Civil_Law.pdf".data }
    score := 10 }

-- ## Theorems

theorem matchPageOf_length {l rem : List Char} (h : matchPageOf l = some rem) :
    rem.length < l.length := by
  unfold matchPageOf at h
  split at h
  case h_2 => exact absurd h (by simp)
  case h_1 _ rest =>
    split at h
    · exact absurd h (by simp)
    · split at h
      case h_2 => exact absurd h (by simp)
      case h_1 _ rest2 heq =>
        split at h
        · exact absurd h (by simp)
        · have h1 : rem = rest2.dropWhile Char.isDigit := by
            simpa using h.symm
          have h2 : (rest2.dropWhile Char.isDigit).length ≤ rest2.length :=
            (List.dropWhile_sublist _).length_le
          have h3 : (rest.dropWhile Char.isDigit).length ≤ rest.length :=
            (List.dropWhile_sublist _).length_le
          have h4 : (rest.dropWhile Char.isDigit).length = rest2.length + 4 := by
            rw [heq]; simp
          subst h1
          simp only [List.length_cons]
          omega

theorem matchNumOf_length {l rem : List Char} (h : matchNumOf l = some rem) :
    rem.length < l.length := by
  unfold matchNumOf at h
  split at h
  · exact absurd h (by simp)
  case isFalse htw =>
    split at h
    case h_2 => exact absurd h (by simp)
    case h_1 _ rest2 heq =>
      split at h
      · exact absurd h (by simp)
      · have h1 : rem = (rest2.dropWhile isPySpace).dropWhile Char.isDigit := by
          simpa using h.symm
        -- the first digit run is nonempty, so the first dropWhile is shortening
        have h5 : (l.dropWhile Char.isDigit).length < l.length := by
          cases l with
          | nil => simp at htw
          | cons a t =>
            by_cases hp : Char.isDigit a
            · rw [List.dropWhile_cons_of_pos hp]
              have := (List.dropWhile_sublist (l := t) Char.isDigit).length_le
              simp only [List.length_cons]; omega
            · rw [List.takeWhile_cons_of_neg hp] at htw; exact absurd rfl htw
        have h6 : ((l.dropWhile Char.isDigit).dropWhile isPySpace).length ≤
            (l.dropWhile Char.isDigit).length :=
          (List.dropWhile_sublist _).length_le
        have h7 : ((l.dropWhile Char.isDigit).dropWhile isPySpace).length =
            rest2.length + 2 := by rw [heq]; simp
        have h8 : ((rest2.dropWhile isPySpace).dropWhile Char.isDigit).length ≤
            rest2.length := le_trans (List.dropWhile_sublist _).length_le
          (List.dropWhile_sublist _).length_le
        subst h1
        omega

example : clean_text "a Page 1 of 2 b".data = "a  b".data := by decide
example : clean_text "a  b".data = "a b".data := by decide
example : categorize_law "KSA_Labor_Law_2020.pdf".data = "labor_law".data := by decide

theorem splitLoop_eq_windows (text : List Char) (cs ov : Nat) :
    ∀ fuel start, splitLoop text cs ov fuel start =
      (splitLoopW text cs ov fuel start).map (chunksOfWindows text) := by
  intro fuel
  induction fuel with
  | zero => intro start; rfl
  | succ n ih =>
    intro start
    by_cases h1 : start < (text.length : Int)
    · by_cases h2 : (text.length : Int) ≤ computeEnd text cs start - (ov : Int)
      · by_cases hc : pyStrip (pySlice text start (computeEnd text cs start)) = [] <;>
          simp [splitLoop, splitLoopW, h1, h2, hc, chunksOfWindows, chunkOfWindow]
      · cases hW : splitLoopW text cs ov n (computeEnd text cs start - (ov : Int)) with
        | none => simp [splitLoop, splitLoopW, h1, h2, ih, hW]
        | some w =>
          by_cases hc : pyStrip (pySlice text start (computeEnd text cs start)) = [] <;>
            simp [splitLoop, splitLoopW, h1, h2, hc, ih, hW, chunksOfWindows, chunkOfWindow]
    · simp [splitLoop, splitLoopW, h1, chunksOfWindows]

theorem splitLoopW_chain (text : List Char) (cs ov : Nat) :
    ∀ fuel start w, splitLoopW text cs ov fuel start = some w →
      windowChain (ov : Int) (text.length : Int) start w := by
  intro fuel
  induction fuel with
  | zero => intro start w h; exact absurd h (by simp [splitLoopW])
  | succ n ih =>
    intro start w h
    by_cases h1 : start < (text.length : Int)
    · by_cases h2 : (text.length : Int) ≤ computeEnd text cs start - (ov : Int)
      · simp [splitLoopW, h1, h2] at h
        subst h
        exact ⟨rfl, h2⟩
      · simp [splitLoopW, h1, h2] at h
        obtain ⟨w', hw', rfl⟩ := h
        exact ⟨rfl, ih _ _ hw'⟩
    · simp [splitLoopW, h1] at h
      subst h
      exact not_lt.mp h1

theorem windowChain_covers {ov len : Int} (hov : 0 ≤ ov) :
    ∀ (w : List (Int × Int)) (s : Int), windowChain ov len s w →
      ∀ p : Int, s ≤ p → p < len → ∃ q ∈ w, q.1 ≤ p ∧ p < q.2 := by
  intro w
  induction w with
  | nil =>
    intro s hchain p hsp hplen
    exact absurd (lt_of_le_of_lt (le_trans hchain hsp) hplen) (lt_irrefl len)
  | cons q rest ih =>
    intro s hchain p hsp hplen
    obtain ⟨hq1, hrest⟩ := hchain
    by_cases hpq : p < q.2
    · exact ⟨q, List.mem_cons_self q rest, hq1 ▸ hsp, hpq⟩
    · have h2 : q.2 - ov ≤ p := by omega
      obtain ⟨q', hq'mem, hq'⟩ := ih (q.2 - ov) hrest p h2 hplen
      exact ⟨q', List.mem_cons_of_mem q hq'mem, hq'⟩

-- With text "ab", chunk_size 1 and overlap 1, one loop iteration
-- returns the loop to the very same state (start stays 0), so the
-- Python loop never terminates: the fuelled model returns none at
-- every fuel.
theorem splitLoop_ab_diverges :
    ∀ fuel, splitLoop "ab".data 1 1 fuel 0 = none := by
  intro fuel
  induction fuel with
  | zero => rfl
  | succ n ih =>
    have hstep : splitLoop "ab".data 1 1 (n + 1) 0 =
        (splitLoop "ab".data 1 1 n 0).map (fun rest => ["a".data] ++ rest) := by
      rfl
    rw [hstep, ih]
    rfl

-- ## Helper lemmas

theorem startsWith_self : ∀ l : List Char, startsWith l l = true
  | [] => rfl
  | a :: as => by simp [startsWith, startsWith_self as]

theorem containsSub_self (l : List Char) : containsSub l l = true := by
  cases l with
  | nil => rfl
  | cons c rest => simp [containsSub, startsWith_self]

theorem containsSub_append_self (pre n : List Char) : containsSub n (pre ++ n) = true := by
  induction pre with
  | nil => simpa using containsSub_self n
  | cons a t ih => simp [containsSub, ih]

theorem mem_pyStrip {c : Char} {l : List Char} (h : c ∈ pyStrip l) : c ∈ l := by
  unfold pyStrip at h
  rw [List.mem_reverse] at h
  have h1 := (List.dropWhile_sublist (l := (l.dropWhile isPySpace).reverse) isPySpace).subset h
  rw [List.mem_reverse] at h1
  exact (List.dropWhile_sublist isPySpace).subset h1

-- Left-trimming is preserved by right-trimming: if the head of A does
-- not satisfy p, the head of its right-trim does not either.
theorem dropWhile_on_rdrop (p : Char → Bool) (A : List Char)
    (hA : A.dropWhile p = A) :
    ((A.reverse.dropWhile p).reverse).dropWhile p = (A.reverse.dropWhile p).reverse := by
  obtain ⟨t, ht⟩ := List.dropWhile_suffix (l := A.reverse) p
  have hA2 : A = (A.reverse.dropWhile p).reverse ++ t.reverse := by
    have h := congrArg List.reverse ht
    simpa [List.reverse_append] using h.symm
  cases hSr : (A.reverse.dropWhile p).reverse with
  | nil => simp [hSr]
  | cons d u =>
    have hAd : A = d :: (u ++ t.reverse) := by rw [hA2, hSr]; simp
    have hpd : p d = false := by
      by_contra hpd'
      have hpd : p d = true := by simpa using hpd'
      rw [hAd, List.dropWhile_cons_of_pos hpd] at hA
      have hlen := (List.dropWhile_sublist (l := u ++ t.reverse) p).length_le
      have hcontra := congrArg List.length hA
      simp only [List.length_cons] at hcontra
      omega
    rw [List.dropWhile_cons_of_neg (by simp [hpd])]

theorem pyStrip_pyStrip (l : List Char) : pyStrip (pyStrip l) = pyStrip l := by
  have hA : (l.dropWhile isPySpace).dropWhile isPySpace = l.dropWhile isPySpace :=
    List.dropWhile_idempotent isPySpace l
  show ((((pyStrip l).dropWhile isPySpace).reverse).dropWhile isPySpace).reverse = pyStrip l
  rw [show (pyStrip l).dropWhile isPySpace = pyStrip l from dropWhile_on_rdrop _ _ hA]
  show ((((l.dropWhile isPySpace).reverse.dropWhile isPySpace).reverse).reverse.dropWhile
    isPySpace).reverse = pyStrip l
  rw [List.reverse_reverse, List.dropWhile_idempotent]
  rfl

-- ## Claim theorems

/-- C9: categorize_law is the case-insensitive first-match-wins scan of
the ordered rule list civil, criminal, labor, company, traffic, sharia,
board-and-grievance, basic-and-governance with default general_law, and
the three concrete filenames of the claim categorize as stated. -/
theorem c9_categorize_law_matches_rule_list :
    (∀ fn, categorize_law fn = specCategorize fn) ∧
    categorize_law "KSA_Labor_Law_2020.pdf".data = "labor_law".data ∧
    categorize_law "Basic_Law_of_Governance.pdf".data = "constitutional_law".data ∧
    categorize_law "random_doc.pdf".data = "general_law".data := by
  refine ⟨?_, by decide, by decide, by decide⟩
  intro fn
  simp only [categorize_law, specCategorize, specRuleList]
  cases h1 : containsSub "civil".data (toLowerList fn) with
  | true => simp [List.find?, h1]
  | false =>
    cases h2 : containsSub "criminal".data (toLowerList fn) with
    | true => simp [List.find?, h1, h2]
    | false =>
      cases h3 : containsSub "labor".data (toLowerList fn) with
      | true => simp [List.find?, h1, h2, h3]
      | false =>
        cases h4 : containsSub "company".data (toLowerList fn) with
        | true => simp [List.find?, h1, h2, h3, h4]
        | false =>
          cases h5 : containsSub "traffic".data (toLowerList fn) with
          | true => simp [List.find?, h1, h2, h3, h4, h5]
          | false =>
            cases h6 : containsSub "sharia".data (toLowerList fn) with
            | true => simp [List.find?, h1, h2, h3, h4, h5, h6]
            | false =>
              cases h7 : containsSub "board".data (toLowerList fn) <;>
                cases h8 : containsSub "grievance".data (toLowerList fn) <;>
                cases h9 : containsSub "basic".data (toLowerList fn) <;>
                cases h10 : containsSub "governance".data (toLowerList fn) <;>
                simp [List.find?, List.all_cons, List.all_nil,
                  h1, h2, h3, h4, h5, h6, h7, h8, h9, h10]

/-- C10: the legacy get_relevant_cases is definitionally
get_relevant_documents with the hybrid law filter. -/
theorem c10_get_relevant_cases_is_hybrid
    (qd em ec : Bool) (p c : Except (List Char) (List Hit)) (k : Nat) :
    get_relevant_cases qd em ec p c k =
      get_relevant_documents qd em ec p c k "hybrid".data := rfl

/-- C7: get_relevant_documents returns at most top_k entries and the
returned list is sorted by score in descending order (the merged
article and case contributions are sorted, then truncated). -/
theorem c7_result_bounded_and_sorted
    (qd em ec : Bool) (p c : Except (List Char) (List Hit)) (k : Nat) (f : List Char) :
    (get_relevant_documents qd em ec p c k f).length ≤ k ∧
    List.Sorted scoreGe (get_relevant_documents qd em ec p c k f) := by
  constructor
  · unfold get_relevant_documents
    split_ifs <;> simp [List.length_take]
  · unfold get_relevant_documents sortScoreDesc
    split_ifs <;>
      first
        | exact List.sorted_nil
        | exact List.Pairwise.sublist (List.take_sublist _ _)
            (List.sorted_insertionSort scoreGe _)

/-- C8: get_relevant_documents degrades instead of raising: an
uninitialized store or embedder (or a failing encode) yields the empty
list, and a raised error in either single collection search is treated
exactly as zero results from that collection, leaving the other
collection's results intact. -/
theorem c8_failure_isolation
    (em ec : Bool) (p c : Except (List Char) (List Hit)) (k : Nat)
    (f msg msg2 : List Char) :
    get_relevant_documents false em ec p c k f = [] ∧
    get_relevant_documents true false ec p c k f = [] ∧
    get_relevant_documents true true false p c k f = [] ∧
    get_relevant_documents true true true (Except.error msg) c k f =
      get_relevant_documents true true true (Except.ok []) c k f ∧
    get_relevant_documents true true true p (Except.error msg2) k f =
      get_relevant_documents true true true p (Except.ok []) k f := by
  refine ⟨rfl, rfl, rfl, ?_, rfl⟩
  simp [get_relevant_documents, pdfPartOf]

/-- C1: at the failing input (one civil_law article hit, no case hits,
top_k = 1, filter sharia) the orchestrator returns the article even
though it fails the sharia law-type filter: the unfiltered re-append
loop leaks unfiltered article results into the output, contradicting
the claim that only filtered articles are returned. -/
theorem c1_sharia_filter_returns_unfiltered_article :
    get_relevant_documents true true true (Except.ok [c1Hit]) (Except.ok [])
        1 "sharia".data = [docOfPdf c1Hit] ∧
    (docOfPdf c1Hit).source = "pdf".data ∧
    (docOfPdf c1Hit).law_type = "civil_law".data ∧
    pdfFilterPred "sharia".data (lawTypeMappingGet (toLowerList "sharia".data)) c1Hit
      = false ∧
    containsSub "sharia_law".data (docOfPdf c1Hit).law_type = false ∧
    containsSub "islamic_law".data (docOfPdf c1Hit).law_type = false := by
  decide

/-- C2: at text "ab" with chunk_size 1 and overlap 1 the chunking loop
makes no forward progress (the next window start equals the previous
start), so split_text_into_chunks never terminates: the fuelled model
returns none for every fuel, refuting termination for all parameters;
nothing rejects or clamps overlap >= chunk_size. -/
theorem c2_chunker_diverges_on_overlap_eq_chunk_size :
    ∀ fuel, split_text_into_chunks "ab".data 1 1 fuel = none := by
  intro fuel
  unfold split_text_into_chunks
  rw [if_neg (by decide)]
  exact splitLoop_ab_diverges fuel

/-- C6: a text no longer than chunk_size is returned whole as the one
chunk; for a longer text, on any terminating run the iteration windows
form a chain in which each window starts exactly overlap characters
before its predecessor's end (windowChain), the windows jointly cover
every position of the text with no gaps, and the returned chunks are
exactly the nonempty stripped window slices. -/
theorem c6_chunker_windows (text : List Char) (cs ov fuel : Nat) :
    (text.length ≤ cs → split_text_into_chunks text cs ov fuel = some [text]) ∧
    (cs < text.length → ∀ w, splitLoopW text cs ov fuel 0 = some w →
      windowChain (ov : Int) (text.length : Int) 0 w ∧
      (∀ p : Int, 0 ≤ p → p < (text.length : Int) → ∃ q ∈ w, q.1 ≤ p ∧ p < q.2) ∧
      split_text_into_chunks text cs ov fuel = some (chunksOfWindows text w)) := by
  constructor
  · intro h
    unfold split_text_into_chunks
    rw [if_pos h]
  · intro hlen w hw
    have hchain := splitLoopW_chain text cs ov fuel 0 w hw
    refine ⟨hchain,
      fun p hp hplen => windowChain_covers (Int.natCast_nonneg ov) w 0 hchain p hp hplen,
      ?_⟩
    unfold split_text_into_chunks
    rw [if_neg (not_le.mpr hlen), splitLoop_eq_windows, hw]
    rfl

/-- Witness for C6 at concrete inputs: the short-text branch on "ab"
with chunk_size 5, and the window facts on "abcdef" with chunk_size 3,
overlap 1, whose terminating run produces windows (0,3), (2,5), (4,7);
position 4 is covered. -/
theorem c6_chunker_windows_witness :
    split_text_into_chunks "ab".data 5 2 3 = some ["ab".data] ∧
    (∃ q ∈ [((0 : Int), (3 : Int)), ((2 : Int), (5 : Int)), ((4 : Int), (7 : Int))],
      q.1 ≤ (4 : Int) ∧ (4 : Int) < q.2) :=
  ⟨(c6_chunker_windows "ab".data 5 2 3).1 (by decide),
   (((c6_chunker_windows "abcdef".data 3 1 5).2 (by decide)
       [((0 : Int), (3 : Int)), ((2 : Int), (5 : Int)), ((4 : Int), (7 : Int))]
       (by decide)).2.1) 4 (by decide) (by decide)⟩

/-- C3 (counterexample): clean_text is not idempotent.  On
"a Page 1 of 2 b" the removal of the pagination pattern leaves two
adjacent spaces, which a second application collapses: the cleaned text
changes when cleaned again. -/
theorem c3_clean_text_not_idempotent :
    clean_text (clean_text "a Page 1 of 2 b".data) ≠
      clean_text "a Page 1 of 2 b".data := by decide

/-- C3 (amended): clean_text is idempotent on every input whose cleaned
form is left unchanged by the whitespace collapse and by the two
pagination-pattern removals — equivalently, re-cleaning is a no-op
unless cleaning itself manufactured a new whitespace run or pagination
pattern (as in the counterexample); the character filter and the final
strip never disturb an already-cleaned text. -/
theorem c3_clean_text_idempotent_on_stable (x : List Char)
    (h1 : collapseWs (clean_text x) = clean_text x)
    (h2 : removePageOf (clean_text x) = clean_text x)
    (h3 : removeNumOf (clean_text x) = clean_text x) :
    clean_text (clean_text x) = clean_text x := by
  have hy : ∀ c ∈ clean_text x, isAllowedChar c = true := by
    intro c hc
    have hmem := mem_pyStrip (l := List.filter isAllowedChar
      (removeNumOf (removePageOf (collapseWs x)))) hc
    exact List.of_mem_filter hmem
  have hfilter : List.filter isAllowedChar (clean_text x) = clean_text x :=
    List.filter_eq_self.mpr hy
  have hstrip : pyStrip (clean_text x) = clean_text x := pyStrip_pyStrip _
  calc clean_text (clean_text x)
      = pyStrip (List.filter isAllowedChar
          (removeNumOf (removePageOf (collapseWs (clean_text x))))) := rfl
    _ = pyStrip (List.filter isAllowedChar (clean_text x)) := by rw [h1, h2, h3]
    _ = pyStrip (clean_text x) := by rw [hfilter]
    _ = clean_text x := hstrip

/-- Witness for the amended C3 at "hello world.", whose cleaned form is
stable under all three pattern passes. -/
theorem c3_clean_text_idempotent_witness :
    clean_text (clean_text "hello world.".data) = clean_text "hello world.".data :=
  c3_clean_text_idempotent_on_stable "hello world.".data (by decide) (by decide) (by decide)

/-- C4 (counterexample): the raw backend error does reach the end user.
With both searches empty, the client initialized, and the completion
call raising "boom", a query without the contract keyword gets the
generic fallback, which embeds the backend error after the Error
details label. -/
theorem c4_error_text_reaches_user :
    ask_chatbot true true true (Except.ok []) (Except.ok []) true
        (fun _ => Except.error "boom".data) "hello".data "hybrid".data =
      genericFallback "hello".data "boom".data ∧
    containsSub "boom".data
      (ask_chatbot true true true (Except.ok []) (Except.ok []) true
        (fun _ => Except.error "boom".data) "hello".data "hybrid".data) = true := by
  refine ⟨rfl, ?_⟩
  rw [show ask_chatbot true true true (Except.ok []) (Except.ok []) true
      (fun _ => Except.error "boom".data) "hello".data "hybrid".data =
      genericFallback "hello".data "boom".data from rfl]
  unfold genericFallback
  exact containsSub_append_self _ _

/-- C4 (amended): when the generation call raises, ask_chatbot returns
a deterministic fallback: the canned contract text for queries
containing the contract keyword (no error text), and for all other
queries the generic template, which does include the raised backend
error string after the Error details label. -/
theorem c4_fallback_characterization
    (qd em ec : Bool) (p c : Except (List Char) (List Hit))
    (backend : List Char → Except (List Char) (List Char)) (query lf e : List Char)
    (hb : ∀ pr, backend pr = Except.error e) :
    (containsSub "contract".data (toLowerList query) = true →
      ask_chatbot qd em ec p c true backend query lf = contractFallback) ∧
    (containsSub "contract".data (toLowerList query) = false →
      ask_chatbot qd em ec p c true backend query lf = genericFallback query e ∧
      containsSub e (ask_chatbot qd em ec p c true backend query lf) = true) := by
  constructor
  · intro hq
    simp [ask_chatbot, hb, hq]
  · intro hq
    have h1 : ask_chatbot qd em ec p c true backend query lf = genericFallback query e := by
      simp [ask_chatbot, hb, hq]
    refine ⟨h1, ?_⟩
    rw [h1]
    unfold genericFallback
    exact containsSub_append_self _ _

/-- Witness for the amended C4: a query mentioning CONTRACT gets the
canned text, and a plain query's answer contains the error err7. -/
theorem c4_fallback_characterization_witness :
    ask_chatbot true true true (Except.ok []) (Except.ok []) true
        (fun _ => Except.error "err7".data) "About my CONTRACT".data "hybrid".data =
      contractFallback ∧
    containsSub "err7".data
      (ask_chatbot true true true (Except.ok []) (Except.ok []) true
        (fun _ => Except.error "err7".data) "plain question".data "hybrid".data) = true :=
  ⟨(c4_fallback_characterization true true true (Except.ok []) (Except.ok [])
      (fun _ => Except.error "err7".data) "About my CONTRACT".data "hybrid".data
      "err7".data (fun _ => rfl)).1 (by decide),
   ((c4_fallback_characterization true true true (Except.ok []) (Except.ok [])
      (fun _ => Except.error "err7".data) "plain question".data "hybrid".data
      "err7".data (fun _ => rfl)).2 (by decide)).2⟩

set_option maxRecDepth 40000 in
/-- C5 (counterexample): with the generation backend absent (the client
is not initialized) and a query containing "contract", ask_chatbot does
not return the canned contract-law fallback: it returns the fixed
AI-service-unavailable message, which does not contain the string
"Offer and Acceptance". -/
theorem c5_backend_absent_returns_unavailable_message :
    ask_chatbot true true true (Except.ok []) (Except.ok []) false
        (fun _ => Except.error "x".data) "contract".data "hybrid".data =
      unavailableMessage ∧
    containsSub "Offer and Acceptance".data
      (ask_chatbot true true true (Except.ok []) (Except.ok []) false
        (fun _ => Except.error "x".data) "contract".data "hybrid".data) = false := by
  constructor
  · rfl
  · decide

set_option maxRecDepth 40000 in
/-- C5 (amended): the canned contract-law fallback is returned verbatim
when the client is initialized but the generation call itself fails and
the query contains the contract keyword; the fallback is non-empty and
contains "Offer and Acceptance".  (When the client is not initialized,
a fixed unavailable-service message is returned instead, regardless of
the query — see the counterexample.) -/
theorem c5_contract_fallback_on_call_failure
    (qd em ec : Bool) (p c : Except (List Char) (List Hit))
    (backend : List Char → Except (List Char) (List Char)) (query lf e : List Char)
    (hb : ∀ pr, backend pr = Except.error e)
    (hq : containsSub "contract".data (toLowerList query) = true) :
    ask_chatbot qd em ec p c true backend query lf = contractFallback ∧
    contractFallback ≠ [] ∧
    containsSub "Offer and Acceptance".data contractFallback = true := by
  refine ⟨?_, by decide, by decide⟩
  simp [ask_chatbot, hb, hq]

/-- Witness for the amended C5 at a concrete failing call and contract
query. -/
theorem c5_contract_fallback_witness :
    ask_chatbot true true true (Except.ok []) (Except.ok []) true
        (fun _ => Except.error "x".data) "contract law?".data "sharia".data =
      contractFallback ∧
    contractFallback ≠ [] ∧
    containsSub "Offer and Acceptance".data contractFallback = true :=
  c5_contract_fallback_on_call_failure true true true (Except.ok []) (Except.ok [])
    (fun _ => Except.error "x".data) "contract law?".data "sharia".data "x".data
    (fun _ => rfl) (by decide)
